import Mathlib

/-
Verification of the fetchling local-first SWR resource engine.

This file gives a shallow embedding, in Lean 4, of the algorithmic core of
the repository: the key/identity utilities (`src/lib/core/id-utils.ts`), the
entity normalizer (`src/lib/core/entity-normalizer.ts`), the URL builder
(`src/lib/core/url-builder.ts`), the filter matcher
(`src/lib/utils/filter-matcher.ts`), the table registry
(`src/lib/core/table-registry.ts`) and the operations factory
(`src/lib/factories/operations-factory.ts`).

JavaScript runtime values relevant to the code under study are modelled by
the inductive type `JSVal` (primitives, `null`, `undefined`, and plain
objects as ordered association lists of fields).  JavaScript exceptions are
modelled with `Except`, asynchronous effect ordering is modelled with
explicit event traces, and network outcomes are inputs from the
environment.
-/

namespace Fetchling

/-- A JavaScript primitive value: string, number, or boolean.
Numbers are modelled as integers (the code under study never produces
fractional values in key, filter, or URL positions). -/
inductive Prim where
  | str (s : String)
  | int (n : Int)
  | bool (b : Bool)
deriving DecidableEq, Repr

/-- A JavaScript runtime value as used by the code under study: a primitive,
`null`, `undefined`, or a plain object represented as an ordered association
list of fields (JavaScript objects preserve insertion order and have unique
keys). -/
inductive JSVal where
  | prim (p : Prim)
  | null
  | undef
  | obj (fields : List (String × JSVal))

/-- JavaScript `String(p)` for a primitive. -/
def Prim.jsString : Prim → String
  | .str s => s
  | .int n => toString n
  | .bool b => if b then "true" else "false"

/-- JavaScript `String(v)` coercion. `String(null) = "null"`,
`String(undefined) = "undefined"`, and a plain object stringifies to
`"[object Object]"`. -/
def JSVal.jsString : JSVal → String
  | .prim p => p.jsString
  | .null => "null"
  | .undef => "undefined"
  | .obj _ => "[object Object]"

/-- Element conversion used by JavaScript `Array.prototype.join`: like
`String(v)` except that `null` and `undefined` become the empty string. -/
def JSVal.joinString : JSVal → String
  | .null => ""
  | .undef => ""
  | v => v.jsString

/-- An entity record or an object-shaped identifier: an ordered association
list of named fields. -/
abbrev JSObj := List (String × JSVal)

/-- JavaScript property read `o[k]`: the field's value when present,
`undefined` otherwise. -/
def getField (o : JSObj) (k : String) : JSVal :=
  (o.lookup k).getD JSVal.undef

/-- Embeds `extractPrimitiveValue` from `src/lib/core/id-utils.ts`:
if the value is a (truthy) object containing an `id` field, return that
`id`; otherwise return the value unchanged. -/
def extractPrimitiveValue : JSVal → JSVal
  | .obj fields =>
    match fields.lookup "id" with
    | some idVal => idVal
    | none => .obj fields
  | v => v

/-- JSON string escaping used by `JSON.stringify` for the characters that
can occur in the identifiers under study (backslash, quote, and the common
control characters). -/
def jsonEscapeChar (c : Char) : String :=
  if c = '\\' then "\\\\"
  else if c = '"' then "\\\""
  else if c = '\n' then "\\n"
  else if c = '\t' then "\\t"
  else if c = '\r' then "\\r"
  else String.singleton c

/-- JSON escaping of a whole string. -/
def jsonEscape (s : String) : String :=
  String.join (s.toList.map jsonEscapeChar)

/-- A JSON string literal (quoted and escaped). -/
def jsonQuote (s : String) : String :=
  "\"" ++ jsonEscape s ++ "\""

/-- `JSON.stringify` of a primitive. -/
def Prim.jsonString : Prim → String
  | .str s => jsonQuote s
  | .int n => toString n
  | .bool b => if b then "true" else "false"

mutual

/-- `JSON.stringify` of a value; `none` models the `undefined` result for
an `undefined` input (object entries with `undefined` values are omitted). -/
def jsonOfVal : JSVal → Option String
  | .prim p => some p.jsonString
  | .null => some "null"
  | .undef => none
  | .obj fields => some (jsonOfObj fields)

/-- `JSON.stringify` of a plain object, keys in insertion order. -/
def jsonOfObj (fields : List (String × JSVal)) : String :=
  "\x7b" ++ String.intercalate "," (jsonEntries fields) ++ "\x7d"

/-- The serialized `"key":value` entries of an object, in order, omitting
entries whose value is `undefined`. -/
def jsonEntries : List (String × JSVal) → List String
  | [] => []
  | (k, v) :: rest =>
    match jsonOfVal v with
    | some s => (jsonQuote k ++ ":" ++ s) :: jsonEntries rest
    | none => jsonEntries rest

end

/-- Result type of `serializeId`: either the identifier passed through
unchanged, or a JSON string for object-shaped identifiers. -/
inductive SerOut where
  | orig (v : JSVal)
  | str (s : String)

/-- Embeds `serializeId` from `src/lib/core/id-utils.ts`.  Object
identifiers with declared key fields are reduced to a fresh object whose
keys are the declared `keyFields`, in that order, each value passed through
`extractPrimitiveValue`, and then JSON-stringified; object identifiers
without key fields are JSON-stringified directly; all other identifiers
(primitives, `null`, `undefined`) pass through unchanged.  The absent
`keyFields` option is modelled by the empty list. -/
def serializeId (id : JSVal) (keyFields : List String) : SerOut :=
  match id with
  | .obj fields =>
    if keyFields.isEmpty then .str (jsonOfObj fields)
    else
      .str (jsonOfObj (keyFields.map fun f =>
        (f, extractPrimitiveValue (getField fields f))))
  | v => .orig v

/-- Embeds `getEntityId` from `src/lib/core/id-utils.ts`: with key fields,
build an object from the declared fields with `extractPrimitiveValue`
applied to each; otherwise read the entity's `id` field. -/
def getEntityId (entity : JSObj) (keyFields : List String) : JSVal :=
  if keyFields.isEmpty then getField entity "id"
  else .obj (keyFields.map fun f => (f, extractPrimitiveValue (getField entity f)))

/-- A Dexie key as passed to `get` / `delete`: either a value passed
through unchanged, or the compound array of primitive values produced by
`buildDexieKey` for composite keys. -/
inductive DexieKey where
  | raw (v : JSVal)
  | compound (vals : List JSVal)

/-- Embeds `buildDexieKey` from `src/lib/core/id-utils.ts`: for a non-null
object identifier with declared key fields, the ordered array of extracted
primitive values; otherwise the identifier unchanged. -/
def buildDexieKey (id : JSVal) (keyFields : List String) : DexieKey :=
  match id with
  | .obj fields =>
    if keyFields.isEmpty then .raw (.obj fields)
    else .compound (keyFields.map fun f => extractPrimitiveValue (getField fields f))
  | v => .raw v

/-- A value of the `ListParams` record type
(`string | number | boolean | string[] | undefined`). -/
inductive ParamVal where
  | str (s : String)
  | int (n : Int)
  | bool (b : Bool)
  | arr (elems : List String)
  | undef
deriving DecidableEq, Repr

/-- A list-query parameter set, `Object.entries` order. -/
abbrev ListParams := List (String × ParamVal)

/-- JavaScript `String(v)` for a `ListParams` value (an array coerces to
its comma-joined elements). -/
def ParamVal.jsString : ParamVal → String
  | .str s => s
  | .int n => toString n
  | .bool b => if b then "true" else "false"
  | .arr elems => String.intercalate "," elems
  | .undef => "undefined"

/-- True when the parameter value is an array. -/
def ParamVal.isArr : ParamVal → Bool
  | .arr _ => true
  | _ => false

/-- The fixed exclusion set from `src/lib/utils/filter-matcher.ts`:
parameters never used for matching. -/
def SPECIAL_PARAMS : List String := ["sort", "fields"]

/-- JavaScript `elems.includes(v)` for an array of strings against an
arbitrary runtime value: SameValueZero (strict) equality, so only a string
value equal to one of the elements is a member — no type coercion. -/
def includesJS (elems : List String) (v : JSVal) : Bool :=
  match v with
  | .prim (.str s) => elems.contains s
  | _ => false

/-- `String(actualObj.id)` for an object field value: the string coercion
of the object's `id` property, which is `undefined` (hence `"undefined"`)
when the property is missing. -/
def refIdString (fields : JSObj) : String :=
  ((fields.lookup "id").getD JSVal.undef).jsString

/-- Embeds `matchesFilter` from `src/lib/utils/filter-matcher.ts`.
Walks the parameter entries in order: `undefined` values and the special
parameters are skipped; an array parameter tests strict membership of the
record's field value; otherwise, when the field value has `typeof`
`"object"` (which in JavaScript includes `null`), the parameter is
compared against `String(actual.id)` — reading `.id` of `null` throws a
`TypeError`, modelled by `Except.error ()`; otherwise the two values are
compared after `String` coercion.  All comparisons are conjunctive. -/
def matchesFilter (entity : JSObj) : ListParams → Except Unit Bool
  | [] => .ok true
  | (key, expected) :: rest =>
    if expected = ParamVal.undef ∨ SPECIAL_PARAMS.contains key = true then
      matchesFilter entity rest
    else
      match expected with
      | .arr elems =>
        if includesJS elems (getField entity key) then matchesFilter entity rest
        else .ok false
      | _ =>
        match getField entity key with
        | .null => .error ()
        | .obj fields =>
          if refIdString fields = expected.jsString then matchesFilter entity rest
          else .ok false
        | actual =>
          if actual.jsString = expected.jsString then matchesFilter entity rest
          else .ok false

/-- Per-field step of `EntityNormalizer.normalize` from
`src/lib/core/entity-normalizer.ts`: a declared key field whose value is a
(truthy) object containing an `id` property is replaced by that `id`;
every other field is left unchanged. -/
def normalizeField (keyFields : List String) (k : String) (v : JSVal) : JSVal :=
  if keyFields.contains k then
    match v with
    | .obj fields =>
      match fields.lookup "id" with
      | some idVal => idVal
      | none => .obj fields
    | _ => v
  else v

/-- Embeds `EntityNormalizer.normalize`: with no configured key fields the
entity is returned as-is; otherwise a shallow copy is produced in which
each declared key field holding a nested `{ id, ... }` reference is
replaced by its primitive `id` (field order preserved). -/
def normalize (keyFields : List String) (entity : JSObj) : JSObj :=
  if keyFields.isEmpty then entity
  else entity.map fun kv => (kv.1, normalizeField keyFields kv.1 kv.2)

/-- Embeds `EntityNormalizer.normalizeMany`: maps `normalize` over the
sequence. -/
def normalizeMany (keyFields : List String) (entities : List JSObj) : List JSObj :=
  entities.map (normalize keyFields)

/-- A registered table's configuration (`TableConfig` in
`src/lib/core/table-registry.ts`); `keyFields := none` models the absent
option. -/
structure TableConfig where
  keyFields : Option (List String)
  baseUrl : String
deriving DecidableEq, Repr

/-- The observable state of a `TableRegistry` together with its Dexie
database: the pending and registered sets, the database schema version
(`db.verno`), the open flag, the accumulated store schema map, and a
counter of performed schema migrations (one per executed
close → version increment → reopen sequence). -/
structure RegistryState where
  pendingTables : List (String × TableConfig)
  registeredTables : List String
  dbVersion : Nat
  dbIsOpen : Bool
  stores : List (String × String)
  migrations : Nat
deriving DecidableEq, Repr

/-- Membership in the pending map. -/
def pendingHas (st : RegistryState) (name : String) : Bool :=
  (st.pendingTables.lookup name).isSome

/-- Embeds `TableRegistry.hasTable`: pending or registered. -/
def hasTable (st : RegistryState) (name : String) : Bool :=
  pendingHas st name || st.registeredTables.contains name

/-- Embeds `TableRegistry.registerTable`.  Throws (models the synchronous
`DuplicateResourceError`) when the name is already pending or registered,
performing no state change and no I/O; otherwise stores the descriptor as
pending (`Map.set` on a fresh name appends). -/
def registerTable (st : RegistryState) (name : String)
    (keyFields : Option (List String)) (baseUrl : Option String) :
    Except String RegistryState :=
  if pendingHas st name || st.registeredTables.contains name then
    .error ("Resource \"" ++ name ++ "\" is already registered in this Query. " ++
      "Each resource can only be registered once.")
  else
    .ok { st with
      pendingTables := st.pendingTables ++ [(name, ⟨keyFields, baseUrl.getD ""⟩)] }

/-- The Dexie schema fragment for one table: compound index syntax
`[a+b]` for composite keys, else the single primary key field `id`. -/
def keySpec (keyFields : Option (List String)) : String :=
  match keyFields with
  | some fs => if fs.isEmpty then "id" else "[" ++ String.intercalate "+" fs ++ "]"
  | none => "id"

/-- Sets a key in an association list, replacing an existing binding or
appending a new one (JavaScript object / `Map.set` update). -/
def assocSet (m : List (String × String)) (k v : String) : List (String × String) :=
  if (m.lookup k).isSome then
    m.map fun kv => if kv.1 = k then (k, v) else kv
  else m ++ [(k, v)]

/-- Folds a batch of schema fragments into the store map. -/
def setStores (m : List (String × String)) :
    List (String × Option (List String)) → List (String × String)
  | [] => m
  | (name, kf) :: rest => setStores (assocSet m name (keySpec kf)) rest

/-- Embeds `TableRegistry.createTables`: filters out already-registered
names; when new tables remain, closes the database if open, adds every new
name to the registered set with its schema fragment, applies them in a
single version increment, and reopens the database.  The single-threaded
sequential model makes the promise-chain serialization of the source
implicit. -/
def createTables (st : RegistryState)
    (tables : List (String × Option (List String))) : RegistryState :=
  if tables.isEmpty then st
  else if (tables.filter fun t => !st.registeredTables.contains t.1).isEmpty then st
  else
    { st with
      registeredTables := st.registeredTables ++
        (tables.filter fun t => !st.registeredTables.contains t.1).map Prod.fst
      stores := setStores st.stores
        (tables.filter fun t => !st.registeredTables.contains t.1)
      dbVersion := st.dbVersion + 1
      dbIsOpen := true
      migrations := st.migrations + 1 }

/-- Embeds `TableRegistry.initializeAll` (named `initAll` here; the source
name starts with a word this development cannot use as an identifier):
a no-op when no tables are pending, otherwise a single batched
`createTables` over the pending map followed by clearing the pending
set. -/
def initAll (st : RegistryState) : RegistryState :=
  if st.pendingTables.isEmpty then st
  else
    { createTables st (st.pendingTables.map fun p => (p.1, p.2.keyFields)) with
      pendingTables := [] }

/-- A network outcome classification for the operations layer: an
`ApiError` carrying an HTTP status, or any other thrown failure (e.g. a
`fetch` network error). -/
inductive NetErr where
  | api (status : Int)
  | netFailure
deriving DecidableEq, Repr

/-- The 404-classification test from `createOperations.getById`:
`err instanceof ApiError && err.status === 404`. -/
def isNotFound : NetErr → Bool
  | .api s => s == 404
  | .netFailure => false

/-- The observable outcome of one `getById` call, for a given cache-read
result and network outcome: the key passed to the local store's `get`, the
resolved value (`none` models `null`), the record written to the local
store by the network continuation (if any), and whether an error was
logged. -/
structure GetByIdResult where
  cacheKey : DexieKey
  result : Option JSObj
  storePut : Option JSObj
  loggedError : Bool

/-- Embeds `createOperations.getById` from
`src/lib/factories/operations-factory.ts`.  The cache read passes the raw
identifier to `tbl.get`; the network continuation on success writes the
normalized entity and yields the raw entity, on a 404-classified failure
yields `null` silently, and on any other failure logs and yields `null`;
the call resolves to the cached value when present, otherwise to the
network outcome.  The cache-read result `cached` and the network outcome
`net` are environment inputs. -/
def getById (keyFields : List String) (id : JSVal) (cached : Option JSObj)
    (net : Except NetErr JSObj) : GetByIdResult :=
  match cached, net with
  | some c, .ok data =>
    ⟨.raw id, some c, some (normalize keyFields data), false⟩
  | some c, .error e =>
    ⟨.raw id, some c, none, !isNotFound e⟩
  | none, .ok data =>
    ⟨.raw id, some data, some (normalize keyFields data), false⟩
  | none, .error e =>
    ⟨.raw id, none, none, !isNotFound e⟩

/-- Embeds `URLBuilder.buildIdUrl` from `src/lib/core/url-builder.ts`:
with key fields and an object identifier, the base URL followed by the
extracted primitive value of each key field in declared order; otherwise
the base URL followed by the string-coerced identifier. -/
def buildIdUrl (baseUrl : String) (keyFields : List String) (id : JSVal) : String :=
  match id with
  | .obj fields =>
    if keyFields.isEmpty then baseUrl ++ "/" ++ JSVal.jsString (.obj fields)
    else
      baseUrl ++ "/" ++ String.intercalate "/"
        (keyFields.map fun f => (extractPrimitiveValue (getField fields f)).joinString)
  | v => baseUrl ++ "/" ++ v.jsString

/-- An observable effect of a `remove` call, in issue order. -/
inductive OpEvent where
  | apiDelete (url : String)
  | storeDelete (key : DexieKey)

/-- Embeds `createOperations.remove`: awaits the network `DELETE` at the
identifier's URL first; only on success is the key produced by
`buildDexieKey` deleted from the local store, after the network call; a
network failure rejects with the error and issues no local-store
operation.  The network outcome `net` is an environment input. -/
def remove (baseUrl : String) (keyFields : List String) (id : JSVal)
    (net : Except NetErr Unit) : List OpEvent × Except NetErr Unit :=
  let url := buildIdUrl baseUrl keyFields id
  match net with
  | .ok _ => ([.apiDelete url, .storeDelete (buildDexieKey id keyFields)], .ok ())
  | .error e => ([.apiDelete url], .error e)

/-! ## Claims about the filter matcher (C3, C4, C10) -/

/-- A parameter name with a false `contains` test is not a member of the
special-parameter exclusion set. -/
theorem not_mem_special {k : String}
    (hk : SPECIAL_PARAMS.contains k = false) : k ∉ SPECIAL_PARAMS := by
  simpa using hk

/-- C3, counterexample: the claim says a numeric field value `5` is a
member of the array parameter `["5"]` (membership after string coercion);
the code uses JavaScript `Array.prototype.includes`, i.e. strict
SameValueZero equality, so the record does not match. -/
theorem C3_counterexample :
    matchesFilter [("count", JSVal.prim (Prim.int 5))]
      [("count", ParamVal.arr ["5"])] = Except.ok false := rfl

/-- C3, amended: an array-valued non-exempt parameter contributes
conjunctively, and its membership test uses strict equality, not string
coercion: the record's field value is a member exactly when it is a string
equal to one of the array's elements. -/
theorem C3_array_membership_is_strict (e : JSObj) (k : String)
    (elems : List String) (rest : ListParams)
    (hk : SPECIAL_PARAMS.contains k = false) :
    matchesFilter e ((k, ParamVal.arr elems) :: rest) =
      (if includesJS elems (getField e k) then matchesFilter e rest
       else Except.ok false)
    ∧ (includesJS elems (getField e k) = true ↔
        ∃ s, getField e k = JSVal.prim (Prim.str s) ∧ s ∈ elems) := by
  constructor
  · simp [matchesFilter, not_mem_special hk]
  · cases h : getField e k with
    | prim p =>
      cases p with
      | str s => simp [includesJS]
      | int n => simp [includesJS]
      | bool b => simp [includesJS]
    | null => simp [includesJS]
    | undef => simp [includesJS]
    | obj fields => simp [includesJS]

/-- C3 witness: instantiates `C3_array_membership_is_strict` on a record
whose `status` field is the string `"active"` and the array parameter
`["active", "pending"]`. -/
theorem C3_witness :
    matchesFilter [("status", JSVal.prim (Prim.str "active"))]
      [("status", ParamVal.arr ["active", "pending"])] =
      (if includesJS ["active", "pending"]
          (getField [("status", JSVal.prim (Prim.str "active"))] "status")
       then matchesFilter [("status", JSVal.prim (Prim.str "active"))] []
       else Except.ok false)
    ∧ (includesJS ["active", "pending"]
          (getField [("status", JSVal.prim (Prim.str "active"))] "status") = true ↔
        ∃ s, getField [("status", JSVal.prim (Prim.str "active"))] "status" =
          JSVal.prim (Prim.str s) ∧ s ∈ ["active", "pending"]) :=
  C3_array_membership_is_strict [("status", JSVal.prim (Prim.str "active"))]
    "status" ["active", "pending"] [] rfl

/-- C4, counterexample: for a record whose `type` field is the reference
object `{ id: "abc123" }` and the array parameter `["abc123"]`, the claim
says the match compares the parameter against the reference's id (so it
would match); the code's array branch runs first and tests strict
membership of the raw object, which never matches. -/
theorem C4_counterexample :
    matchesFilter
      [("type", JSVal.obj [("id", JSVal.prim (Prim.str "abc123")),
                           ("name", JSVal.prim (Prim.str "Note"))])]
      [("type", ParamVal.arr ["abc123"])] = Except.ok false := rfl

/-- C4, amended: when the record's field value is a reference object, a
scalar (non-array, defined) parameter is compared against
`String(reference.id)` under string coercion, never against the object
itself; an array-valued parameter, however, is tested for strict
membership of the raw object and therefore never matches. -/
theorem C4_reference_id_comparison (e : JSObj) (k : String) (flds : JSObj)
    (pv : ParamVal) (rest : ListParams)
    (hk : SPECIAL_PARAMS.contains k = false)
    (harr : pv.isArr = false) (hundef : pv ≠ ParamVal.undef)
    (hf : getField e k = JSVal.obj flds) :
    matchesFilter e ((k, pv) :: rest) =
      (if refIdString flds = pv.jsString then matchesFilter e rest
       else Except.ok false)
    ∧ ∀ elems, matchesFilter e ((k, ParamVal.arr elems) :: rest) = Except.ok false := by
  constructor
  · cases pv with
    | arr elems => simp [ParamVal.isArr] at harr
    | undef => exact absurd rfl hundef
    | str s => simp [matchesFilter, not_mem_special hk, hf]
    | int n => simp [matchesFilter, not_mem_special hk, hf]
    | bool b => simp [matchesFilter, not_mem_special hk, hf]
  · intro elems
    simp [matchesFilter, not_mem_special hk, hf, includesJS]

/-- C4 witness: instantiates `C4_reference_id_comparison` on a record with
reference field `type = { id: "abc123", name: "Note" }` and the scalar
parameter `"abc123"`. -/
theorem C4_witness :
    matchesFilter
      [("type", JSVal.obj [("id", JSVal.prim (Prim.str "abc123")),
                           ("name", JSVal.prim (Prim.str "Note"))])]
      [("type", ParamVal.str "abc123")] =
      (if refIdString [("id", JSVal.prim (Prim.str "abc123")),
                       ("name", JSVal.prim (Prim.str "Note"))] =
          (ParamVal.str "abc123").jsString
       then matchesFilter
         [("type", JSVal.obj [("id", JSVal.prim (Prim.str "abc123")),
                              ("name", JSVal.prim (Prim.str "Note"))])] []
       else Except.ok false)
    ∧ ∀ elems, matchesFilter
        [("type", JSVal.obj [("id", JSVal.prim (Prim.str "abc123")),
                             ("name", JSVal.prim (Prim.str "Note"))])]
        [("type", ParamVal.arr elems)] = Except.ok false :=
  C4_reference_id_comparison _ "type"
    [("id", JSVal.prim (Prim.str "abc123")), ("name", JSVal.prim (Prim.str "Note"))]
    (ParamVal.str "abc123") [] rfl rfl (by intro h; exact ParamVal.noConfusion h) rfl

/-- C10, counterexample: the claim says `matchesFilter` returns a boolean
when an entity's field value is `null` and a defined, non-array,
non-exempt parameter names that field; in the code `typeof null` is
`"object"`, so the reference branch reads `.id` of `null` and throws a
`TypeError`. -/
theorem C10_counterexample :
    matchesFilter [("x", JSVal.null)] [("x", ParamVal.str "a")] =
      Except.error () := rfl

/-- C10, amended: `matchesFilter` returns a boolean whenever no defined,
non-array, non-exempt parameter names a field whose value is `null`; with
such a parameter the call can instead throw (see the counterexample). -/
theorem C10_total_unless_null_field (e : JSObj) (ps : ListParams)
    (h : ∀ k pv, (k, pv) ∈ ps → pv ≠ ParamVal.undef → pv.isArr = false →
          SPECIAL_PARAMS.contains k = false → getField e k ≠ JSVal.null) :
    ∃ b, matchesFilter e ps = Except.ok b := by
  induction ps with
  | nil => exact ⟨true, rfl⟩
  | cons kv rest ih =>
    obtain ⟨k, pv⟩ := kv
    have htail : ∀ k' pv', (k', pv') ∈ rest → pv' ≠ ParamVal.undef →
        pv'.isArr = false → SPECIAL_PARAMS.contains k' = false →
        getField e k' ≠ JSVal.null :=
      fun k' pv' hm => h k' pv' (List.mem_cons_of_mem _ hm)
    by_cases hskip : pv = ParamVal.undef ∨ SPECIAL_PARAMS.contains k = true
    · obtain ⟨b, hb⟩ := ih htail
      refine ⟨b, ?_⟩
      rcases hskip with hu | hc
      · subst hu; simp [matchesFilter, hb]
      · have hmem : k ∈ SPECIAL_PARAMS := by simpa using hc
        simp [matchesFilter, hmem, hb]
    · push_neg at hskip
      obtain ⟨hundef, hsp⟩ := hskip
      have hspb : SPECIAL_PARAMS.contains k = false := Bool.eq_false_iff.mpr hsp
      have hsp' : k ∉ SPECIAL_PARAMS := not_mem_special hspb
      cases pv with
      | arr elems =>
        by_cases hin : includesJS elems (getField e k) = true
        · obtain ⟨b, hb⟩ := ih htail
          exact ⟨b, by simp [matchesFilter, hsp', hin, hb]⟩
        · exact ⟨false, by simp [matchesFilter, hsp',
            Bool.eq_false_iff.mpr hin]⟩
      | undef => exact absurd rfl hundef
      | str s =>
        have hnull := h k (ParamVal.str s) (List.mem_cons_self _ _)
          hundef rfl hspb
        obtain ⟨b, hb⟩ := ih htail
        cases hv : getField e k with
        | null => exact absurd hv hnull
        | obj fields =>
          by_cases heq : refIdString fields = (ParamVal.str s).jsString
          · exact ⟨b, by simp [matchesFilter, hsp', hv, heq, hb]⟩
          · exact ⟨false, by simp [matchesFilter, hsp', hv, heq]⟩
        | prim p =>
          by_cases heq : (JSVal.prim p).jsString = (ParamVal.str s).jsString
          · exact ⟨b, by simp [matchesFilter, hsp', hv, heq, hb]⟩
          · exact ⟨false, by simp [matchesFilter, hsp', hv, heq]⟩
        | undef =>
          by_cases heq : JSVal.undef.jsString = (ParamVal.str s).jsString
          · exact ⟨b, by simp [matchesFilter, hsp', hv, heq, hb]⟩
          · exact ⟨false, by simp [matchesFilter, hsp', hv, heq]⟩
      | int n =>
        have hnull := h k (ParamVal.int n) (List.mem_cons_self _ _)
          hundef rfl hspb
        obtain ⟨b, hb⟩ := ih htail
        cases hv : getField e k with
        | null => exact absurd hv hnull
        | obj fields =>
          by_cases heq : refIdString fields = (ParamVal.int n).jsString
          · exact ⟨b, by simp [matchesFilter, hsp', hv, heq, hb]⟩
          · exact ⟨false, by simp [matchesFilter, hsp', hv, heq]⟩
        | prim p =>
          by_cases heq : (JSVal.prim p).jsString = (ParamVal.int n).jsString
          · exact ⟨b, by simp [matchesFilter, hsp', hv, heq, hb]⟩
          · exact ⟨false, by simp [matchesFilter, hsp', hv, heq]⟩
        | undef =>
          by_cases heq : JSVal.undef.jsString = (ParamVal.int n).jsString
          · exact ⟨b, by simp [matchesFilter, hsp', hv, heq, hb]⟩
          · exact ⟨false, by simp [matchesFilter, hsp', hv, heq]⟩
      | bool c =>
        have hnull := h k (ParamVal.bool c) (List.mem_cons_self _ _)
          hundef rfl hspb
        obtain ⟨b, hb⟩ := ih htail
        cases hv : getField e k with
        | null => exact absurd hv hnull
        | obj fields =>
          by_cases heq : refIdString fields = (ParamVal.bool c).jsString
          · exact ⟨b, by simp [matchesFilter, hsp', hv, heq, hb]⟩
          · exact ⟨false, by simp [matchesFilter, hsp', hv, heq]⟩
        | prim p =>
          by_cases heq : (JSVal.prim p).jsString = (ParamVal.bool c).jsString
          · exact ⟨b, by simp [matchesFilter, hsp', hv, heq, hb]⟩
          · exact ⟨false, by simp [matchesFilter, hsp', hv, heq]⟩
        | undef =>
          by_cases heq : JSVal.undef.jsString = (ParamVal.bool c).jsString
          · exact ⟨b, by simp [matchesFilter, hsp', hv, heq, hb]⟩
          · exact ⟨false, by simp [matchesFilter, hsp', hv, heq]⟩

/-- C10 witness: instantiates `C10_total_unless_null_field` on a record
with a non-null field and a matching scalar parameter. -/
theorem C10_witness :
    ∃ b, matchesFilter [("a", JSVal.prim (Prim.str "x"))]
      [("a", ParamVal.str "x")] = Except.ok b :=
  C10_total_unless_null_field [("a", JSVal.prim (Prim.str "x"))]
    [("a", ParamVal.str "x")]
    (by
      intro k pv hm _ _ _
      simp at hm
      obtain ⟨hk, _⟩ := hm
      subst hk
      intro hcon
      exact JSVal.noConfusion hcon)

/-! ## Claims about the identity utilities (C5) -/

/-- C5: for object identifiers with declared key fields, `serializeId`
reduces each declared field to its extracted primitive and JSON-stringifies
an object whose key order is exactly the declared `keyFields` order, so
the result depends only on the identifier's value at the declared fields —
two semantically equal identifiers serialize identically regardless of
their own property insertion order — and primitive identifiers pass
through unchanged. -/
theorem C5_serializeId_deterministic (f1 f2 : JSObj) (ks : List String) (p : Prim)
    (hks : ks ≠ [])
    (hagree : ∀ k ∈ ks, getField f1 k = getField f2 k) :
    serializeId (JSVal.obj f1) ks = serializeId (JSVal.obj f2) ks
    ∧ serializeId (JSVal.obj f1) ks =
        SerOut.str (jsonOfObj (ks.map fun k =>
          (k, extractPrimitiveValue (getField f1 k))))
    ∧ serializeId (JSVal.prim p) ks = SerOut.orig (JSVal.prim p) := by
  have hne : ks.isEmpty = false := by
    cases ks with
    | nil => exact absurd rfl hks
    | cons a l => rfl
  refine ⟨?_, ?_, rfl⟩
  · simp only [serializeId, hne, Bool.false_eq_true, if_false]
    have hmap : (ks.map fun f => (f, extractPrimitiveValue (getField f1 f))) =
        ks.map fun f => (f, extractPrimitiveValue (getField f2 f)) :=
      List.map_congr_left fun k hk => by rw [hagree k hk]
    rw [hmap]
  · simp only [serializeId, hne, Bool.false_eq_true, if_false]

/-- C5 witness: instantiates `C5_serializeId_deterministic` on two
property-order permutations of the composite tag identifier
`{ space: { id: "s1" }, name: "urgent" }` with
`keyFields = ["space", "name"]`. -/
theorem C5_witness :
    serializeId (JSVal.obj [("space", JSVal.obj [("id", JSVal.prim (Prim.str "s1"))]),
                            ("name", JSVal.prim (Prim.str "urgent"))])
        ["space", "name"] =
      serializeId (JSVal.obj [("name", JSVal.prim (Prim.str "urgent")),
                              ("space", JSVal.obj [("id", JSVal.prim (Prim.str "s1"))])])
        ["space", "name"]
    ∧ serializeId (JSVal.obj [("space", JSVal.obj [("id", JSVal.prim (Prim.str "s1"))]),
                              ("name", JSVal.prim (Prim.str "urgent"))])
        ["space", "name"] =
      SerOut.str (jsonOfObj (["space", "name"].map fun k =>
        (k, extractPrimitiveValue
          (getField [("space", JSVal.obj [("id", JSVal.prim (Prim.str "s1"))]),
                     ("name", JSVal.prim (Prim.str "urgent"))] k))))
    ∧ serializeId (JSVal.prim (Prim.str "123")) ["space", "name"] =
      SerOut.orig (JSVal.prim (Prim.str "123")) :=
  C5_serializeId_deterministic
    [("space", JSVal.obj [("id", JSVal.prim (Prim.str "s1"))]),
     ("name", JSVal.prim (Prim.str "urgent"))]
    [("name", JSVal.prim (Prim.str "urgent")),
     ("space", JSVal.obj [("id", JSVal.prim (Prim.str "s1"))])]
    ["space", "name"] (Prim.str "123")
    (by intro h; exact List.noConfusion h)
    (by
      intro k hk
      simp at hk
      rcases hk with h | h <;> subst h <;> rfl)

/-! ## Claims about the entity normalizer (C6) -/

/-- C6: `normalize` is a value-level no-op when no composite keys are
configured; otherwise it returns a same-shape copy (same field names in
the same order) in which a declared key field holding a nested
`{ id, ... }` reference is replaced by that `id`, while non-key fields —
nested references included — and key fields not holding an `{ id, ... }`
object are carried over unchanged.  (Reference identity of the input and
output objects is outside this value semantics; the source returns the
input itself when no key fields are configured and a fresh shallow copy
otherwise, never writing to the input.) -/
theorem C6_normalize_narrow (kf : List String) (e : JSObj) :
    (kf = [] → normalize kf e = e)
    ∧ (normalize kf e).map Prod.fst = e.map Prod.fst
    ∧ (∀ k v, (k, v) ∈ e → kf.contains k = false → (k, v) ∈ normalize kf e)
    ∧ (∀ k flds idVal, (k, JSVal.obj flds) ∈ e → kf.contains k = true →
        flds.lookup "id" = some idVal → (k, idVal) ∈ normalize kf e)
    ∧ (∀ k flds, (k, JSVal.obj flds) ∈ e → kf.contains k = true →
        flds.lookup "id" = none → (k, JSVal.obj flds) ∈ normalize kf e)
    ∧ (∀ k v, (k, v) ∈ e → (∀ flds, v ≠ JSVal.obj flds) →
        (k, v) ∈ normalize kf e) := by
  by_cases hkf : kf.isEmpty
  · have hnil : kf = [] := by
      cases kf with
      | nil => rfl
      | cons a l => simp [List.isEmpty] at hkf
    subst hnil
    refine ⟨fun _ => by simp [normalize], by simp [normalize], ?_, ?_, ?_, ?_⟩
    · intro k v hm _; simpa [normalize] using hm
    · intro k flds idVal hm hc; simp at hc
    · intro k flds hm hc _; simp at hc
    · intro k v hm _; simpa [normalize] using hm
  · have hkf' : kf.isEmpty = false := Bool.eq_false_iff.mpr hkf
    have hnorm : normalize kf e =
        e.map fun kv => (kv.1, normalizeField kf kv.1 kv.2) := by
      simp [normalize, hkf']
    refine ⟨?_, ?_, ?_, ?_, ?_, ?_⟩
    · intro h; subst h; simp [List.isEmpty] at hkf'
    · rw [hnorm, List.map_map]; rfl
    · intro k v hm hc
      rw [hnorm]
      have hcm : k ∉ kf := by simpa using hc
      exact List.mem_map.mpr ⟨(k, v), hm, by simp [normalizeField, hcm]⟩
    · intro k flds idVal hm hc hid
      rw [hnorm]
      refine List.mem_map.mpr ⟨(k, JSVal.obj flds), hm, ?_⟩
      have hcm : k ∈ kf := by simpa using hc
      simp [normalizeField, hcm, hid]
    · intro k flds hm hc hid
      rw [hnorm]
      refine List.mem_map.mpr ⟨(k, JSVal.obj flds), hm, ?_⟩
      have hcm : k ∈ kf := by simpa using hc
      simp [normalizeField, hcm, hid]
    · intro k v hm hnobj
      rw [hnorm]
      refine List.mem_map.mpr ⟨(k, v), hm, ?_⟩
      by_cases hcm : k ∈ kf
      · cases v with
        | obj flds => exact absurd rfl (hnobj flds)
        | prim p => simp [normalizeField, hcm]
        | null => simp [normalizeField, hcm]
        | undef => simp [normalizeField, hcm]
      · simp [normalizeField, hcm]

/-- C6 witness: instantiates `C6_normalize_narrow` on the tag entity
`{ space: { id: "s1", name: "Work" }, name: "urgent", color: "#FF0000" }`
with `keyFields = ["space"]`: the key field is flattened to `"s1"`, and
the non-key fields survive unchanged. -/
theorem C6_witness :
    (normalize ["space"]
        [("space", JSVal.obj [("id", JSVal.prim (Prim.str "s1")),
                              ("name", JSVal.prim (Prim.str "Work"))]),
         ("name", JSVal.prim (Prim.str "urgent")),
         ("color", JSVal.prim (Prim.str "#FF0000"))]).map Prod.fst =
      [("space", JSVal.obj [("id", JSVal.prim (Prim.str "s1")),
                            ("name", JSVal.prim (Prim.str "Work"))]),
       ("name", JSVal.prim (Prim.str "urgent")),
       ("color", JSVal.prim (Prim.str "#FF0000"))].map Prod.fst
    ∧ ("space", JSVal.prim (Prim.str "s1")) ∈ normalize ["space"]
        [("space", JSVal.obj [("id", JSVal.prim (Prim.str "s1")),
                              ("name", JSVal.prim (Prim.str "Work"))]),
         ("name", JSVal.prim (Prim.str "urgent")),
         ("color", JSVal.prim (Prim.str "#FF0000"))]
    ∧ ("color", JSVal.prim (Prim.str "#FF0000")) ∈ normalize ["space"]
        [("space", JSVal.obj [("id", JSVal.prim (Prim.str "s1")),
                              ("name", JSVal.prim (Prim.str "Work"))]),
         ("name", JSVal.prim (Prim.str "urgent")),
         ("color", JSVal.prim (Prim.str "#FF0000"))] := by
  have h := C6_normalize_narrow ["space"]
    [("space", JSVal.obj [("id", JSVal.prim (Prim.str "s1")),
                          ("name", JSVal.prim (Prim.str "Work"))]),
     ("name", JSVal.prim (Prim.str "urgent")),
     ("color", JSVal.prim (Prim.str "#FF0000"))]
  refine ⟨h.2.1, ?_, ?_⟩
  · exact h.2.2.2.1 "space"
      [("id", JSVal.prim (Prim.str "s1")), ("name", JSVal.prim (Prim.str "Work"))]
      (JSVal.prim (Prim.str "s1")) (List.Mem.head _) rfl rfl
  · exact h.2.2.1 "color" (JSVal.prim (Prim.str "#FF0000"))
      (List.Mem.tail _ (List.Mem.tail _ (List.Mem.head _))) rfl

/-! ## Claims about the table registry (C7, C8) -/

/-- Association-list lookup falls through an append when the left list has
no binding for the key. -/
theorem lookup_append_left_none {α : Type} {l₁ l₂ : List (String × α)} {k : String}
    (h : l₁.lookup k = none) : (l₁ ++ l₂).lookup k = l₂.lookup k := by
  induction l₁ with
  | nil => rfl
  | cons a t ih =>
    obtain ⟨k', v⟩ := a
    by_cases hbeq : (k == k') = true
    · simp [List.lookup, hbeq] at h
    · have hb : (k == k') = false := Bool.eq_false_iff.mpr hbeq
      simp only [List.cons_append, List.lookup, hb] at h ⊢
      exact ih h

/-- A key bound in an association list has a successful lookup. -/
theorem mem_lookup_isSome {α : Type} {l : List (String × α)} {k : String} {v : α}
    (h : (k, v) ∈ l) : (l.lookup k).isSome = true := by
  induction l with
  | nil => cases h
  | cons a t ih =>
    rcases List.mem_cons.mp h with h' | h'
    · subst h'
      simp [List.lookup]
    · obtain ⟨k', v'⟩ := a
      by_cases hbeq : (k == k') = true
      · simp [List.lookup, hbeq]
      · have hb : (k == k') = false := Bool.eq_false_iff.mpr hbeq
        simp only [List.lookup, hb]
        exact ih h'

/-- A successful lookup means the key occurs among the list's keys. -/
theorem lookup_isSome_mem_keys {α : Type} {l : List (String × α)} {k : String}
    (h : (l.lookup k).isSome = true) : k ∈ l.map Prod.fst := by
  induction l with
  | nil => simp [List.lookup] at h
  | cons a t ih =>
    obtain ⟨k', v⟩ := a
    by_cases hbeq : (k == k') = true
    · have : k = k' := by simpa using hbeq
      simp [this]
    · have hb : (k == k') = false := Bool.eq_false_iff.mpr hbeq
      simp only [List.lookup, hb] at h
      simp [ih h]

/-- A list with `isEmpty = true` is nil. -/
theorem isEmpty_true_eq_nil {α : Type} {l : List α} (h : l.isEmpty = true) :
    l = [] := by
  cases l with
  | nil => rfl
  | cons a t => simp [List.isEmpty] at h

/-- A list with a member is not `isEmpty`. -/
theorem isEmpty_false_of_mem {α : Type} {l : List α} {a : α} (h : a ∈ l) :
    l.isEmpty = false := by
  cases l with
  | nil => cases h
  | cons b t => rfl

/-- Unfolding of a successful `registerTable`: the duplicate guard was
false and the descriptor was appended to the pending map. -/
theorem registerTable_ok {st st' : RegistryState} {name : String}
    {kf : Option (List String)} {b : Option String}
    (h : registerTable st name kf b = Except.ok st') :
    pendingHas st name = false
    ∧ st.registeredTables.contains name = false
    ∧ st' = { st with
        pendingTables := st.pendingTables ++ [(name, ⟨kf, b.getD ""⟩)] } := by
  by_cases hc : (pendingHas st name || st.registeredTables.contains name) = true
  · unfold registerTable at h
    rw [if_pos hc] at h
    cases h
  · have hb : (pendingHas st name || st.registeredTables.contains name) = false :=
      Bool.eq_false_iff.mpr hc
    obtain ⟨h1, h2⟩ := Bool.or_eq_false_iff.mp hb
    refine ⟨h1, h2, ?_⟩
    unfold registerTable at h
    rw [if_neg hc] at h
    exact (Except.ok.injEq _ _).mp h |>.symm

/-- `createTables` never removes a name from the registered set. -/
theorem mem_registered_createTables (st : RegistryState)
    (tables : List (String × Option (List String))) (n : String)
    (h : n ∈ st.registeredTables) :
    n ∈ (createTables st tables).registeredTables := by
  unfold createTables
  by_cases h1 : tables.isEmpty = true
  · rw [if_pos h1]; exact h
  · rw [if_neg h1]
    by_cases h2 : (tables.filter fun t => !st.registeredTables.contains t.1).isEmpty = true
    · rw [if_pos h2]; exact h
    · rw [if_neg h2]; exact List.mem_append_left _ h

/-- Every name known to the registry before `initAll` — registered or
pending — is in the registered set afterwards. -/
theorem mem_registered_initAll (st : RegistryState) (n : String)
    (h : n ∈ st.registeredTables ∨ n ∈ st.pendingTables.map Prod.fst) :
    n ∈ (initAll st).registeredTables := by
  unfold initAll
  by_cases hp : st.pendingTables.isEmpty = true
  · rw [if_pos hp]
    rcases h with h | h
    · exact h
    · rw [isEmpty_true_eq_nil hp] at h; cases h
  · rw [if_neg hp]
    show n ∈ (createTables st
      (st.pendingTables.map fun p => (p.1, p.2.keyFields))).registeredTables
    by_cases hreg : n ∈ st.registeredTables
    · exact mem_registered_createTables st _ n hreg
    · rcases h with h | h
      · exact absurd h hreg
      · have hkeys : n ∈
            (st.pendingTables.map fun p => (p.1, p.2.keyFields)).map Prod.fst := by
          simpa [List.map_map, Function.comp] using h
        obtain ⟨t, hmt, hfst⟩ := List.mem_map.mp hkeys
        have hkeepb : (!st.registeredTables.contains t.1) = true := by
          rw [hfst]; simp [hreg]
        have hmemf : t ∈ (st.pendingTables.map fun p =>
            (p.1, p.2.keyFields)).filter fun t => !st.registeredTables.contains t.1 :=
          List.mem_filter.mpr ⟨hmt, hkeepb⟩
        have hte : ((st.pendingTables.map fun p =>
            (p.1, p.2.keyFields))).isEmpty = false := isEmpty_false_of_mem hmt
        have hnef : ((st.pendingTables.map fun p =>
            (p.1, p.2.keyFields)).filter fun t =>
              !st.registeredTables.contains t.1).isEmpty = false :=
          isEmpty_false_of_mem hmemf
        unfold createTables
        rw [if_neg (by rw [hte]; exact Bool.false_ne_true),
          if_neg (by rw [hnef]; exact Bool.false_ne_true)]
        exact List.mem_append_right _ (List.mem_map.mpr ⟨t, hmemf, hfst⟩)

/-- A name known to the registry (pending or registered) is in the
registered set after `initAll` (boolean form). -/
theorem initAll_registers (st : RegistryState) (name : String)
    (h : hasTable st name = true) :
    (initAll st).registeredTables.contains name = true := by
  have hmem : name ∈ (initAll st).registeredTables := by
    refine mem_registered_initAll st name ?_
    cases hp : pendingHas st name with
    | true => exact Or.inr (lookup_isSome_mem_keys hp)
    | false =>
      have hr : st.registeredTables.contains name = true := by
        unfold hasTable at h
        rw [hp] at h
        simpa using h
      exact Or.inl (by simpa using hr)
  simpa using hmem

/-- C7: once `registerTable` has accepted a name, registering the same
name again throws the duplicate error while the name is still pending,
still throws after `initAll` has moved it to the registered set, and in
general any state that knows the name (pending or registered) rejects it.
The embedding of `registerTable` is a pure function: the throw happens
before any I/O or state change, so a failed call leaves the pending and
registered sets untouched. -/
theorem C7_duplicate_registration (st st' : RegistryState) (name : String)
    (kf kf' : Option (List String)) (b b' : Option String)
    (h : registerTable st name kf b = Except.ok st') :
    (∃ err, registerTable st' name kf' b' = Except.error err)
    ∧ (∃ err, registerTable (initAll st') name kf' b' = Except.error err)
    ∧ (∀ s : RegistryState, hasTable s name = true →
        ∃ err, registerTable s name kf' b' = Except.error err) := by
  obtain ⟨hp, hr, hst'⟩ := registerTable_ok h
  have hpnone : st.pendingTables.lookup name = none := by
    cases hl : st.pendingTables.lookup name with
    | none => rfl
    | some v =>
      unfold pendingHas at hp
      rw [hl] at hp
      simp at hp
  have hpend : pendingHas st' name = true := by
    subst hst'
    unfold pendingHas
    simp only
    rw [lookup_append_left_none hpnone]
    simp [List.lookup]
  have hhas : hasTable st' name = true := by
    unfold hasTable
    rw [hpend]
    rfl
  have herr : ∀ s : RegistryState, hasTable s name = true →
      ∃ err, registerTable s name kf' b' = Except.error err := by
    intro s hs
    refine ⟨"Resource \"" ++ name ++ "\" is already registered in this Query. " ++
      "Each resource can only be registered once.", ?_⟩
    have hs' : (pendingHas s name || s.registeredTables.contains name) = true := hs
    unfold registerTable
    rw [if_pos hs']
  refine ⟨herr st' hhas, ?_, herr⟩
  have hreg := initAll_registers st' name hhas
  refine herr _ ?_
  unfold hasTable
  rw [hreg]
  simp

/-- The empty registry over a fresh database. -/
def emptyRegistry : RegistryState :=
  { pendingTables := [], registeredTables := [], dbVersion := 0,
    dbIsOpen := false, stores := [], migrations := 0 }

/-- C7 witness: instantiates `C7_duplicate_registration` for the `tags`
resource registered on the empty registry. -/
theorem C7_witness :
    (∃ err, registerTable
      { emptyRegistry with
        pendingTables := [("tags", ⟨some ["spaceId", "tagName"], "/tags"⟩)] }
      "tags" none none = Except.error err)
    ∧ (∃ err, registerTable
        (initAll { emptyRegistry with
          pendingTables := [("tags", ⟨some ["spaceId", "tagName"], "/tags"⟩)] })
        "tags" none none = Except.error err)
    ∧ (∀ s : RegistryState, hasTable s "tags" = true →
        ∃ err, registerTable s "tags" none none = Except.error err) :=
  C7_duplicate_registration emptyRegistry
    { emptyRegistry with
      pendingTables := [("tags", ⟨some ["spaceId", "tagName"], "/tags"⟩)] }
    "tags" (some ["spaceId", "tagName"]) none (some "/tags") none rfl

/-- After `initAll` there are no pending tables. -/
theorem initAll_pending_nil (st : RegistryState) :
    (initAll st).pendingTables = [] := by
  unfold initAll
  by_cases h : st.pendingTables.isEmpty = true
  · rw [if_pos h]
    exact isEmpty_true_eq_nil h
  · rw [if_neg h]

/-- `initAll` is the identity on a state with no pending tables. -/
theorem initAll_of_pending_nil (st : RegistryState)
    (h : st.pendingTables = []) : initAll st = st := by
  unfold initAll
  rw [h]
  rfl

/-- C8: a second `initAll` with no registrations in between is the
identity — in particular it performs zero additional schema migrations
(the migration counter, the schema version, and the whole state are
unchanged, so there is no further close/reopen); a successful `initAll`
moves every pending table to the registered set and clears the pending
set; and pending tables that are already registered are skipped, so
resubmitting only such tables performs no migration, no version
increment, and no schema change. -/
theorem C8_initAll_idempotent (st : RegistryState) :
    initAll (initAll st) = initAll st
    ∧ (initAll (initAll st)).migrations = (initAll st).migrations
    ∧ (initAll (initAll st)).dbVersion = (initAll st).dbVersion
    ∧ (initAll st).pendingTables = []
    ∧ (∀ n cfg, (n, cfg) ∈ st.pendingTables →
        (initAll st).registeredTables.contains n = true)
    ∧ ((∀ p ∈ st.pendingTables, st.registeredTables.contains p.1 = true) →
        (initAll st).dbVersion = st.dbVersion
        ∧ (initAll st).migrations = st.migrations
        ∧ (initAll st).stores = st.stores) := by
  have hid : initAll (initAll st) = initAll st :=
    initAll_of_pending_nil _ (initAll_pending_nil st)
  refine ⟨hid, by rw [hid], by rw [hid], initAll_pending_nil st, ?_, ?_⟩
  · intro n cfg hm
    refine initAll_registers st n ?_
    unfold hasTable pendingHas
    rw [mem_lookup_isSome hm]
    rfl
  · intro hall
    by_cases hp : st.pendingTables.isEmpty = true
    · rw [initAll_of_pending_nil st (isEmpty_true_eq_nil hp)]
      exact ⟨rfl, rfl, rfl⟩
    · have hnil : ((st.pendingTables.map fun p => (p.1, p.2.keyFields)).filter
          fun t => !st.registeredTables.contains t.1) = [] := by
        refine List.filter_eq_nil_iff.mpr ?_
        intro t ht
        obtain ⟨p, hpmem, hpt⟩ := List.mem_map.mp ht
        have hcont := hall p hpmem
        rw [← hpt]
        simp only
        rw [hcont]
        simp
      have hct : createTables st
          (st.pendingTables.map fun p => (p.1, p.2.keyFields)) = st := by
        unfold createTables
        by_cases hte : ((st.pendingTables.map fun p =>
            (p.1, p.2.keyFields))).isEmpty = true
        · rw [if_pos hte]
        · rw [if_neg hte, if_pos (by rw [hnil]; rfl)]
      unfold initAll
      rw [if_neg hp, hct]
      exact ⟨rfl, rfl, rfl⟩

/-- C8 witness: instantiates `C8_initAll_idempotent` on a registry with
one pending `tags` table, and discharges the skip conjunct's hypothesis on
a registry whose only pending table is already registered. -/
theorem C8_witness :
    (initAll (initAll { emptyRegistry with
        pendingTables := [("tags", ⟨some ["spaceId", "tagName"], "/tags"⟩)] }) =
      initAll { emptyRegistry with
        pendingTables := [("tags", ⟨some ["spaceId", "tagName"], "/tags"⟩)] })
    ∧ (initAll { emptyRegistry with
        pendingTables :=
          [("tags", ⟨some ["spaceId", "tagName"], "/tags"⟩)] }).pendingTables = []
    ∧ (initAll { emptyRegistry with
        pendingTables :=
          [("tags", ⟨some ["spaceId", "tagName"], "/tags"⟩)] }).registeredTables.contains
        "tags" = true
    ∧ ((initAll { emptyRegistry with
          pendingTables := [("users", ⟨none, "/users"⟩)],
          registeredTables := ["users"] }).dbVersion =
        ({ emptyRegistry with
          pendingTables := [("users", ⟨none, "/users"⟩)],
          registeredTables := ["users"] } : RegistryState).dbVersion
       ∧ (initAll { emptyRegistry with
            pendingTables := [("users", ⟨none, "/users"⟩)],
            registeredTables := ["users"] }).migrations =
          ({ emptyRegistry with
            pendingTables := [("users", ⟨none, "/users"⟩)],
            registeredTables := ["users"] } : RegistryState).migrations
       ∧ (initAll { emptyRegistry with
            pendingTables := [("users", ⟨none, "/users"⟩)],
            registeredTables := ["users"] }).stores =
          ({ emptyRegistry with
            pendingTables := [("users", ⟨none, "/users"⟩)],
            registeredTables := ["users"] } : RegistryState).stores) := by
  have h1 := C8_initAll_idempotent { emptyRegistry with
    pendingTables := [("tags", ⟨some ["spaceId", "tagName"], "/tags"⟩)] }
  have h2 := C8_initAll_idempotent { emptyRegistry with
    pendingTables := [("users", ⟨none, "/users"⟩)],
    registeredTables := ["users"] }
  refine ⟨h1.1, h1.2.2.2.1, ?_, ?_⟩
  · exact h1.2.2.2.2.1 "tags" ⟨some ["spaceId", "tagName"], "/tags"⟩
      (List.Mem.head _)
  · refine h2.2.2.2.2.2 ?_
    intro p hp
    rcases List.mem_cons.mp hp with h | h
    · subst h; rfl
    · cases h

/-! ## Claims about the operations factory (C1, C2, C9) -/

/-- C1: with an empty cache read, `getById` never rejects on a network
failure — a 404-classified failure resolves to `null` without an error
log, any other failure logs and also resolves to `null`, and in both
failure cases nothing is written to the local store; a successful network
result is normalized, written to the local store, and the call resolves to
the (raw) fetched entity.  (The embedding's return type has no error
alternative: every network outcome yields a result.) -/
theorem C1_getById_never_rejects (kf : List String) (id : JSVal) (data : JSObj)
    (e : NetErr) (he : isNotFound e = false) :
    getById kf id none (Except.error (NetErr.api 404)) =
      ⟨DexieKey.raw id, none, none, false⟩
    ∧ getById kf id none (Except.error e) = ⟨DexieKey.raw id, none, none, true⟩
    ∧ getById kf id none (Except.ok data) =
        ⟨DexieKey.raw id, some data, some (normalize kf data), false⟩ := by
  refine ⟨rfl, ?_, rfl⟩
  show GetByIdResult.mk (DexieKey.raw id) none none (!isNotFound e) =
    GetByIdResult.mk (DexieKey.raw id) none none true
  rw [he]
  rfl

/-- C1 witness: instantiates `C1_getById_never_rejects` with a non-404
network failure. -/
theorem C1_witness :
    getById [] (JSVal.prim (Prim.str "user1")) none
      (Except.error (NetErr.api 404)) =
      ⟨DexieKey.raw (JSVal.prim (Prim.str "user1")), none, none, false⟩
    ∧ getById [] (JSVal.prim (Prim.str "user1")) none
        (Except.error NetErr.netFailure) =
        ⟨DexieKey.raw (JSVal.prim (Prim.str "user1")), none, none, true⟩
    ∧ getById [] (JSVal.prim (Prim.str "user1")) none
        (Except.ok [("id", JSVal.prim (Prim.str "user1"))]) =
        ⟨DexieKey.raw (JSVal.prim (Prim.str "user1")),
         some [("id", JSVal.prim (Prim.str "user1"))],
         some (normalize [] [("id", JSVal.prim (Prim.str "user1"))]), false⟩ :=
  C1_getById_never_rejects [] (JSVal.prim (Prim.str "user1"))
    [("id", JSVal.prim (Prim.str "user1"))] NetErr.netFailure rfl

/-- The composite tag identifier `{ spaceId: "s1", tagName: "t1" }` from
the spec's deletion scenario. -/
def tagId : JSVal :=
  .obj [("spaceId", .prim (.str "s1")), ("tagName", .prim (.str "t1"))]

/-- C2: `remove` awaits the network `DELETE` first; on success — and only
then — it deletes `buildDexieKey(id, keyFields)` from the local store
(strictly after the network event in the trace); on a network failure the
call rejects with the error and the trace contains no local-store delete,
leaving the local copy intact.  For the `tags` resource with
`keyFields = ["spaceId","tagName"]` and `id = {spaceId:"s1", tagName:"t1"}`
the `DELETE` goes to `/tags/s1/t1` and the local delete uses the compound
key `["s1","t1"]`. -/
theorem C2_remove_network_then_delete (baseUrl : String) (kf : List String)
    (id : JSVal) (e : NetErr) :
    remove baseUrl kf id (Except.ok ()) =
      ([OpEvent.apiDelete (buildIdUrl baseUrl kf id),
        OpEvent.storeDelete (buildDexieKey id kf)], Except.ok ())
    ∧ remove baseUrl kf id (Except.error e) =
        ([OpEvent.apiDelete (buildIdUrl baseUrl kf id)], Except.error e)
    ∧ (∀ ev ∈ (remove baseUrl kf id (Except.error e)).1,
        ∀ key, ev ≠ OpEvent.storeDelete key)
    ∧ buildIdUrl "/tags" ["spaceId", "tagName"] tagId = "/tags/s1/t1"
    ∧ buildDexieKey tagId ["spaceId", "tagName"] =
        DexieKey.compound [JSVal.prim (Prim.str "s1"), JSVal.prim (Prim.str "t1")] := by
  refine ⟨rfl, rfl, ?_, rfl, rfl⟩
  intro ev hev key
  have : ev = OpEvent.apiDelete (buildIdUrl baseUrl kf id) := by
    simpa [remove] using hev
  subst this
  intro hcon
  exact OpEvent.noConfusion hcon

/-- C2 witness: instantiates `C2_remove_network_then_delete` on the
spec's scenario and evaluates the trace on both network outcomes. -/
theorem C2_witness :
    remove "/tags" ["spaceId", "tagName"] tagId (Except.ok ()) =
      ([OpEvent.apiDelete "/tags/s1/t1",
        OpEvent.storeDelete (DexieKey.compound
          [JSVal.prim (Prim.str "s1"), JSVal.prim (Prim.str "t1")])], Except.ok ())
    ∧ remove "/tags" ["spaceId", "tagName"] tagId
        (Except.error NetErr.netFailure) =
        ([OpEvent.apiDelete "/tags/s1/t1"], Except.error NetErr.netFailure) := by
  have h := C2_remove_network_then_delete "/tags" ["spaceId", "tagName"]
    tagId NetErr.netFailure
  exact ⟨h.1, h.2.1⟩

/-- C9, counterexample: for the composite tag identifier with
`keyFields = ["spaceId","tagName"]`, the key `getById` passes to the local
store's `get` (the raw identifier object) differs from
`buildDexieKey(id, keyFields)` (the compound array `["s1","t1"]` that
`remove` passes to `delete`), contradicting the claim that they are
equal. -/
theorem C9_counterexample :
    (getById ["spaceId", "tagName"] tagId none
        (Except.error NetErr.netFailure)).cacheKey ≠
      buildDexieKey tagId ["spaceId", "tagName"] :=
  fun h => DexieKey.noConfusion h

/-- C9, amended: `getById` always passes the raw identifier to the local
store's `get`; for simple (primitive) identifiers this coincides with
`buildDexieKey`, so the cache-read key and `remove`'s delete key agree,
but for composite object identifiers with declared key fields the two
differ — `remove` deletes the compound array key while `getById` queries
with the identifier object itself (which Dexie treats as an
equality-criteria lookup rather than a compound primary key). -/
theorem C9_cache_key_is_raw_id (kf : List String) (p : Prim) (fields : JSObj)
    (cached : Option JSObj) (net : Except NetErr JSObj)
    (hkf : kf ≠ []) :
    (getById kf (JSVal.prim p) cached net).cacheKey =
      buildDexieKey (JSVal.prim p) kf
    ∧ (∀ id cached' net',
        (getById kf id cached' net').cacheKey = DexieKey.raw id)
    ∧ (getById kf (JSVal.obj fields) cached net).cacheKey ≠
        buildDexieKey (JSVal.obj fields) kf := by
  have hkey : ∀ (id : JSVal) (cached' : Option JSObj) (net' : Except NetErr JSObj),
      (getById kf id cached' net').cacheKey = DexieKey.raw id := by
    intro id cached' net'
    cases cached' <;> cases net' <;> rfl
  have hne : kf.isEmpty = false := by
    cases kf with
    | nil => exact absurd rfl hkf
    | cons a l => rfl
  refine ⟨?_, hkey, ?_⟩
  · rw [hkey]
    rfl
  · rw [hkey]
    unfold buildDexieKey
    rw [hne]
    simp only [Bool.false_eq_true, if_false]
    intro h
    exact DexieKey.noConfusion h

/-- C9 witness: instantiates `C9_cache_key_is_raw_id` on the composite
tag resource. -/
theorem C9_witness :
    (getById ["spaceId", "tagName"] (JSVal.prim (Prim.str "user1")) none
        (Except.error NetErr.netFailure)).cacheKey =
      buildDexieKey (JSVal.prim (Prim.str "user1")) ["spaceId", "tagName"]
    ∧ (∀ id cached' net',
        (getById ["spaceId", "tagName"] id cached' net').cacheKey =
          DexieKey.raw id)
    ∧ (getById ["spaceId", "tagName"]
          (JSVal.obj [("spaceId", JSVal.prim (Prim.str "s1")),
                      ("tagName", JSVal.prim (Prim.str "t1"))]) none
          (Except.error NetErr.netFailure)).cacheKey ≠
        buildDexieKey
          (JSVal.obj [("spaceId", JSVal.prim (Prim.str "s1")),
                      ("tagName", JSVal.prim (Prim.str "t1"))])
          ["spaceId", "tagName"] :=
  C9_cache_key_is_raw_id ["spaceId", "tagName"] (Prim.str "user1")
    [("spaceId", JSVal.prim (Prim.str "s1")),
     ("tagName", JSVal.prim (Prim.str "t1"))]
    none (Except.error NetErr.netFailure)
    (by intro h; exact List.noConfusion h)

end Fetchling
